import Mathlib

/-!
Verification of the Uptick employee-dashboard core
(`src/EmployeeDashboard.tsx`), shallowly embedded in Lean 4.

The embedding follows the source file function by function:

* JavaScript runtime values that flow through `JSON.parse` /
  `localStorage` are modelled by the inductive `JsValue`; property
  access, `typeof`, truthiness and the `length` / `filter` member
  accesses used by the `useState` initializer are modelled explicitly,
  with a thrown `TypeError` represented as `Except.error`.
* Typed employee records (the `Employee` interface) are modelled by the
  structures `ContactInfo`, `EmployeeBase`, `Employee`.  The TypeScript
  string enums (`Department`, `Role`, `Status`, `ContractType`) are
  runtime strings, and the dashboard's type guard `isEmployee` only
  checks `typeof ... === "string"`, so enum-typed fields are embedded
  as `String`.
* `Array.prototype.sort` with a *consistent* comparator is stable
  (ECMAScript 2019), which determines its output uniquely; that case
  is modelled by the stable insertion sort `sortWith`.  The dedicated
  `hireDate` comparator of the source never returns `0` — on ties it
  returns `-1` for both argument orders — so it is not consistent,
  ECMAScript leaves the resulting order implementation-defined, and
  real engines may reorder tied records; the engine's result for that
  branch is therefore a parameter of the model, not `sortWith`.
  `localeCompare` is modelled by the dictionary order on `String`;
  only its behaviour on identical strings (result `0`) matters for
  the stability results below.
* Nondeterministic inputs of the source (`uid()`, `Date` parsing,
  `confirm()` dialogs, the seed collection that bakes in `Date.now()`)
  are passed as explicit parameters.
-/

/-! ## JavaScript runtime values (for `loadJSON` / `isEmployee`) -/

/-- A JavaScript value as it can appear after `JSON.parse`, plus
`undefined` (the result of reading an absent object property). -/
inductive JsValue where
  | jnull
  | jundef
  | jbool (b : Bool)
  | jnum (n : Int)
  | jstr (s : String)
  | jarr (elems : List JsValue)
  | jobj (fields : List (String × JsValue))

namespace JsValue

/-- JavaScript `typeof`.  Note `typeof null === "object"` and arrays are
`"object"` as well. -/
def typeOf : JsValue → String
  | jnull => "object"
  | jundef => "undefined"
  | jbool _ => "boolean"
  | jnum _ => "number"
  | jstr _ => "string"
  | jarr _ => "object"
  | jobj _ => "object"

/-- JavaScript truthiness (`NaN` is not representable here since numbers
are embedded as integers). -/
def truthy : JsValue → Bool
  | jnull => false
  | jundef => false
  | jbool b => b
  | jnum n => n != 0
  | jstr s => s ≠ ""
  | jarr _ => true
  | jobj _ => true

/-- Property read `v[name]` on an object: a missing key yields
`undefined`.  Named properties of non-objects used by the source are
modelled separately (`jsLength`). -/
def getProp (v : JsValue) (name : String) : JsValue :=
  match v with
  | jobj fields =>
    match fields.find? (fun p => p.1 == name) with
    | some p => p.2
    | none => jundef
  | _ => jundef

end JsValue

/-- The type guard `isEmployee` (source lines 99–113), verbatim:
`!obj || typeof obj !== "object"` rejects falsy values and
non-objects, then each required field must have the expected
`typeof`.  (`typeof e.contact === "object"` also accepts `null` and
arrays, exactly as in JavaScript.) -/
def isEmployee (obj : JsValue) : Bool :=
  if !obj.truthy || obj.typeOf != "object" then false
  else
    (obj.getProp ("id")).typeOf == "string" &&
    (obj.getProp ("name")).typeOf == "string" &&
    (obj.getProp ("employeeId")).typeOf == "string" &&
    (obj.getProp ("department")).typeOf == "string" &&
    (obj.getProp ("role")).typeOf == "string" &&
    (obj.getProp ("status")).typeOf == "string" &&
    (obj.getProp ("contractType")).typeOf == "string" &&
    (obj.getProp ("hireDate")).typeOf == "string" &&
    (obj.getProp ("contact")).typeOf == "object"

/-! ## `loadJSON` and the `employees` state initializer -/

/-- What `localStorage.getItem` + `JSON.parse` can produce for a key:
`none` = no item stored; `some none` = an item whose text does not
parse (`JSON.parse` throws and `loadJSON` catches); `some (some v)` =
the parsed value. -/
abbrev StoredItem := Option (Option JsValue)

/-- `loadJSON` (source lines 146–155): returns the fallback when the
item is absent or unparseable, otherwise the parsed value, cast
unchecked (`parsed as T`). -/
def loadJSON (fallback : JsValue) (stored : StoredItem) : JsValue :=
  match stored with
  | none => fallback
  | some none => fallback
  | some (some v) => v

/-- The member access `cached.length`.  `null.length` and
`undefined.length` throw a `TypeError`; numbers and booleans have no
`length` property (`undefined`); strings and arrays have a numeric
length; plain objects look the key up. -/
def jsLength : JsValue → Except String JsValue
  | .jnull => .error ("TypeError: cannot read length of null")
  | .jundef => .error ("TypeError: cannot read length of undefined")
  | .jbool _ => .ok .jundef
  | .jnum _ => .ok .jundef
  | .jstr s => .ok (.jnum s.length)
  | .jarr l => .ok (.jnum l.length)
  | .jobj fields => .ok ((JsValue.jobj fields).getProp ("length"))

/-- The call `cached.filter(isEmployee)`: only arrays have a `filter`
method; on anything else the call throws a `TypeError`. -/
def jsFilterIsEmployee : JsValue → Except String (List JsValue)
  | .jarr l => .ok (l.filter isEmployee)
  | _ => .error ("TypeError: cached.filter is not a function")

/-- The `useState` initializer for `employees` (source lines 253–258):
`loadJSON` with fallback `[]`, then
`if (cached.length) return cached.filter(isEmployee);` else install the
seed collection.  The seed (`SEED`, which bakes in `uid()` and
`Date.now()`) is a parameter; the `saveJSON(LS_KEYS.employees, SEED)`
side effect on the seed path is not part of the returned value and is
not modelled. -/
def loadEmployees (seed : List JsValue) (stored : StoredItem) :
    Except String (List JsValue) := do
  let cached := loadJSON (.jarr []) stored
  let len ← jsLength cached
  if len.truthy then
    jsFilterIsEmployee cached
  else
    pure seed

/-! ## Typed employee records -/

/-- `ContactInfo` (intersection of `PhoneEmail` and
`EmergencyContact`). -/
structure ContactInfo where
  phone : String
  email : String
  emergencyName : String
  emergencyPhone : String
  deriving DecidableEq, Repr

/-- `EmployeeBase`.  `department`, `role`, `status` and `contractType`
are runtime strings (TypeScript string enums); `supervisor` and
`photoUrl` are optional. -/
structure EmployeeBase where
  name : String
  employeeId : String
  department : String
  role : String
  supervisor : Option String
  status : String
  contractType : String
  hireDate : String
  contact : ContactInfo
  photoUrl : Option String
  deriving DecidableEq, Repr

/-- `Employee extends EmployeeBase` with the internal GUID `id`. -/
structure Employee extends EmployeeBase where
  id : String
  deriving DecidableEq, Repr

/-! ## Sorting (`sortByKey` and the `filtered` memo) -/

/-- The comparator body of `sortByKey` for string-valued keys:
`if (va === vb) return 0;` then `va.localeCompare(vb)`, the latter
modelled by the dictionary order on `String`. -/
def jsCompare (va vb : String) : Int :=
  if va = vb then 0
  else if va < vb then -1
  else 1

/-- Stable insertion of `x` into `l`: `x` goes in front of the first
element `y` with `c x y ≤ 0` (so equal-comparing elements keep their
relative order, as the ECMAScript stable `Array.prototype.sort`
guarantees). -/
def insertSorted (c : α → α → Int) (x : α) : List α → List α
  | [] => [x]
  | y :: ys => if c x y ≤ 0 then x :: y :: ys else y :: insertSorted c x ys

/-- Stable sort by comparator `c`: the model of
`[...arr].sort(comparator)`. -/
def sortWith (c : α → α → Int) : List α → List α
  | [] => []
  | x :: xs => insertSorted c x (sortWith c xs)

inductive SortDir where
  | asc
  | desc
  deriving DecidableEq, Repr

/-- `sortByKey` (source lines 119–131), specialised to a string-valued
key projection (the dashboard only sorts by the string keys `name`,
`hireDate`, `employeeId`): stable-sort ascending, then reverse the
whole result when the direction is `"desc"`. -/
def sortByKey (keyOf : α → String) (dir : SortDir) (arr : List α) : List α :=
  let sorted := sortWith (fun a b => jsCompare (keyOf a) (keyOf b)) arr
  match dir with
  | .asc => sorted
  | .desc => sorted.reverse

/-- The sort keys offered by the UI (`SortPicker`). -/
inductive SortKey where
  | name
  | hireDate
  | employeeId
  deriving DecidableEq, Repr

/-- The projection a sort key reads. -/
def sortKeyStr : SortKey → Employee → String
  | .name, e => e.name
  | .hireDate, e => e.hireDate
  | .employeeId, e => e.employeeId

/-- The comparator of the dedicated `hireDate` branch of `filtered`
(source line 285): `(a, b) => (a.hireDate > b.hireDate ? 1 : -1)`.
It never returns `0`: on two records with equal `hireDate` it returns
`-1` for *both* argument orders, so it is not a consistent comparison
function and ECMAScript leaves the order `Array.prototype.sort`
produces with it implementation-defined (tied records may or may not
keep their input order, and e.g. V8 reverses tied pairs). -/
def hireDateCmp (a b : Employee) : Int :=
  if a.hireDate > b.hireDate then 1 else -1

/-- The sorting tail of the `filtered` memo (source lines 283–289):
`hireDate` runs `[...rows].sort(hireDateCmp)` and then `reverse()` for
`"desc"`; because `hireDateCmp` is inconsistent on ties (see above),
the engine's sort result is not determined by ECMAScript and is passed
in as the parameter `hireDateSorted`.  Every other key goes through
`sortByKey`, whose comparator is consistent. -/
def sortEmployees (hireDateSorted : List Employee → List Employee)
    (key : SortKey) (dir : SortDir) (rows : List Employee) :
    List Employee :=
  match key with
  | .hireDate =>
    let sorted := hireDateSorted rows
    match dir with
    | .asc => sorted
    | .desc => sorted.reverse
  | .name => sortByKey (fun e => e.name) dir rows
  | .employeeId => sortByKey (fun e => e.employeeId) dir rows

/-! ## Search, filters, and the full `filtered` view -/

/-- `needle` occurs as a contiguous substring of `hay`
(JavaScript `String.prototype.includes`). -/
def strIncludesAux : List Char → List Char → Bool
  | _, [] => true
  | [], _ :: _ => false
  | h :: t, n :: ns => List.isPrefixOf (n :: ns) (h :: t) || strIncludesAux t (n :: ns)

/-- `hay.includes(needle)`. -/
def strIncludes (hay needle : String) : Bool :=
  strIncludesAux hay.data needle.data

/-- JavaScript `String.prototype.trim`: strip whitespace from both
ends. -/
def jsTrim (s : String) : String :=
  String.mk (((s.data.dropWhile Char.isWhitespace).reverse.dropWhile
    Char.isWhitespace).reverse)

/-- JavaScript `String.prototype.toLowerCase` (ASCII case folding). -/
def jsToLower (s : String) : String :=
  String.mk (s.data.map Char.toLower)

/-- One record matches the free-text search (source lines 274–276):
`[e.name, e.employeeId, e.contact.email].some(v =>
v.toLowerCase().includes(s))`. -/
def searchMatch (s : String) (e : Employee) : Bool :=
  [e.name, e.employeeId, e.contact.email].any
    (fun v => strIncludes (jsToLower v) s)

/-- The ephemeral query state: search text, the four categorical
filters (each `"All"` or a single value), sort key and direction. -/
structure QueryParams where
  q : String
  fDept : String
  fRole : String
  fStatus : String
  fContract : String
  sortKey : SortKey
  sortDir : SortDir
  deriving DecidableEq, Repr

/-- The `filtered` memo (source lines 270–290): search (active when
`q.trim()` is non-empty, with needle `q.toLowerCase()` untrimmed), the
four conjunctive exact-match filters, then the sort.  `hireDateSorted`
is the engine's (implementation-defined) result for the inconsistent
`hireDate` comparator, forwarded to `sortEmployees`; it is irrelevant
for the other sort keys. -/
def filteredView (hireDateSorted : List Employee → List Employee)
    (employees : List Employee) (p : QueryParams) :
    List Employee :=
  let rows := employees
  let rows := if jsTrim p.q ≠ "" then rows.filter (searchMatch (jsToLower p.q)) else rows
  let rows := if p.fDept ≠ "All" then rows.filter (fun e => e.department == p.fDept) else rows
  let rows := if p.fRole ≠ "All" then rows.filter (fun e => e.role == p.fRole) else rows
  let rows := if p.fStatus ≠ "All" then rows.filter (fun e => e.status == p.fStatus) else rows
  let rows := if p.fContract ≠ "All" then rows.filter (fun e => e.contractType == p.fContract) else rows
  sortEmployees hireDateSorted p.sortKey p.sortDir rows

/-! ## Aggregates: `daysBetween` and `newlyHired` -/

/-- `Math.round (n / d)` for integers with `d > 0`:
`⌊n/d + 1/2⌋ = ⌊(2n + d) / (2d)⌋` (JavaScript rounds half toward
`+∞`). -/
def jsRoundDiv (n d : Int) : Int :=
  Int.fdiv (2 * n + d) (2 * d)

/-- `daysBetween` (source lines 162–166):
`Math.round((b - a) / (1000*60*60*24))` on the epoch-millisecond
timestamps of the two ISO strings.  `new Date(iso).getTime()` is passed
in as the function `getTime`. -/
def daysBetween (getTime : String → Int) (aIso bIso : String) : Int :=
  jsRoundDiv (getTime bIso - getTime aIso) (1000 * 60 * 60 * 24)

/-- The `newlyHired` metric (source line 304): count of employees with
`daysBetween(e.hireDate, now) <= 30`, `now` being
`new Date().toISOString()`. -/
def newlyHired (getTime : String → Int) (now : String)
    (employees : List Employee) : Nat :=
  (employees.filter (fun e => daysBetween getTime e.hireDate now ≤ 30)).length

/-! ## Mutation service: `remove` and `upsert` -/

/-- The observable outcome of a mutation attempt, one constructor per
control path of the source: the silent early return when `canEdit` is
false, the `alert(...)` on failed validation, the declined `confirm()`
dialog of `remove`, and the state-changing success path. -/
inductive MutResult where
  | ok
  | capabilityDenied
  | validationError
  | cancelled
  deriving DecidableEq, Repr

/-- `remove` (source lines 340–345): refused when `canEdit` is false;
otherwise, after a confirmed dialog, drop every record whose `id`
matches. -/
def remove (canEdit : Bool) (confirmOk : Bool) (id : String)
    (employees : List Employee) : MutResult × List Employee :=
  if !canEdit then (.capabilityDenied, employees)
  else if confirmOk then
    (.ok, employees.filter (fun x => x.id ≠ id))
  else (.cancelled, employees)

/-- `upsert` (source lines 347–363): refused when `canEdit` is false;
then the "very light validation" (`!form.name || !form.employeeId ||
!form.contact.email`, empty string being the only falsy string); then
either the in-place update (`prev.map(x => x.id === editingId ?
{ ...x, ...form } : x)`) or the prepend of a fresh record
(`{ id: uid(), ...form }`, `uid()` passed in as `newId`). -/
def upsert (canEdit : Bool) (newId : String) (editingId : Option String)
    (form : EmployeeBase) (employees : List Employee) :
    MutResult × List Employee :=
  if !canEdit then (.capabilityDenied, employees)
  else if form.name = "" ∨ form.employeeId = "" ∨ form.contact.email = "" then
    (.validationError, employees)
  else
    match editingId with
    | some tid =>
      (.ok, employees.map (fun x =>
        if x.id = tid then { toEmployeeBase := form, id := x.id } else x))
    | none =>
      (.ok, { toEmployeeBase := form, id := newId } :: employees)

/-! ## Export service -/

/-- `.replace(/"/g, '""')`: every double-quote character is doubled,
all other characters pass through. -/
def escQuotes : List Char → List Char
  | [] => []
  | c :: cs => if c = '"' then '"' :: '"' :: escQuotes cs else c :: escQuotes cs

/-- The CSV field escaper (source line 171):
`(v) => `"${String(v ?? "").replace(/"/g, '""')}"`` — every value is
double-quoted and embedded double quotes are doubled. -/
def csvEsc (v : String) : String :=
  "\"" ++ String.mk (escQuotes v.data) ++ "\""

/-- The flattened row built by `exportCSV` (source lines 376–391), as
the key/value pairs of the object literal, in insertion order;
`supervisor` and `photoUrl` fall back to `""` via `?? ""`. -/
def employeeRow (e : Employee) : List (String × String) :=
  [("id", e.id),
   ("name", e.name),
   ("employeeId", e.employeeId),
   ("department", e.department),
   ("role", e.role),
   ("supervisor", e.supervisor.getD ("")),
   ("status", e.status),
   ("contractType", e.contractType),
   ("hireDate", e.hireDate),
   ("email", e.contact.email),
   ("phone", e.contact.phone),
   ("emergencyName", e.contact.emergencyName),
   ("emergencyPhone", e.contact.emergencyPhone),
   ("photoUrl", e.photoUrl.getD (""))]

/-- The fixed column order of the CSV export (the insertion order of
the row object literal, which `Object.keys` reproduces). -/
def csvHeaders : List String :=
  ["id", "name", "employeeId", "department", "role", "supervisor",
   "status", "contractType", "hireDate", "email", "phone",
   "emergencyName", "emergencyPhone", "photoUrl"]

/-- The values of a flattened row, in column order. -/
def employeeValues (e : Employee) : List String :=
  [e.id, e.name, e.employeeId, e.department, e.role,
   e.supervisor.getD (""), e.status, e.contractType, e.hireDate,
   e.contact.email, e.contact.phone, e.contact.emergencyName,
   e.contact.emergencyPhone, e.photoUrl.getD ("")]

/-- `r[h]` followed by `?? ""` inside `esc` (`String(v ?? "")`): look a
header up in a row, an absent key rendering as the empty string. -/
def rowLookup (r : List (String × String)) (h : String) : String :=
  match r.find? (fun p => p.1 == h) with
  | some p => p.2
  | none => ""

/-- `toCSV` (source lines 168–174): empty input yields the empty
string; otherwise the headers are the keys of the first row, the first
output line is the unescaped comma-joined headers, and each row
contributes the comma-joined escaped values looked up per header;
lines are joined with `"\n"`. -/
def toCSV (rows : List (List (String × String))) : String :=
  match rows with
  | [] => ""
  | r0 :: _ =>
    let headers := r0.map (fun p => p.1)
    String.intercalate ("\n")
      ((String.intercalate (",") headers) ::
        rows.map (fun r =>
          String.intercalate (",") (headers.map (fun h => csvEsc (rowLookup r h)))))

/-- `exportCSV` (source lines 375–392): flatten the **full**
`employees` collection (not the `filtered` view) and feed it to
`toCSV`.  The surrounding Blob/anchor-click download plumbing is
presentation-layer and not modelled. -/
def exportCSV (employees : List Employee) : String :=
  toCSV (employees.map employeeRow)

/-- The JSON document structure serialized by `exportJSON` (source
lines 366–374): `JSON.stringify(employees, null, 2)` renders the array
of all employee objects; optional fields that are absent are omitted
by `JSON.stringify` (they are `undefined`). -/
def employeeToJson (e : Employee) : JsValue :=
  .jobj
    ([("id", .jstr e.id),
      ("name", .jstr e.name),
      ("employeeId", .jstr e.employeeId),
      ("department", .jstr e.department),
      ("role", .jstr e.role)] ++
     (match e.supervisor with
      | some s => [("supervisor", JsValue.jstr s)]
      | none => []) ++
     [("status", .jstr e.status),
      ("contractType", .jstr e.contractType),
      ("hireDate", .jstr e.hireDate),
      ("contact", .jobj
        [("phone", .jstr e.contact.phone),
         ("email", .jstr e.contact.email),
         ("emergencyName", .jstr e.contact.emergencyName),
         ("emergencyPhone", .jstr e.contact.emergencyPhone)])] ++
     (match e.photoUrl with
      | some u => [("photoUrl", JsValue.jstr u)]
      | none => []))

/-- The array serialized by `exportJSON`: every record of the full
collection, in order. -/
def exportJSONDoc (employees : List Employee) : JsValue :=
  .jarr (employees.map employeeToJson)

/-- The JSON-export button handler as invoked from the component: the
query state `view` is in scope but unused — the export closes over
`employees` alone. -/
def exportJSONClick (employees : List Employee) (view : QueryParams) :
    JsValue :=
  exportJSONDoc employees

/-- The CSV-export button handler as invoked from the component: the
query state `view` is in scope but unused. -/
def exportCSVClick (employees : List Employee) (view : QueryParams) :
    String :=
  exportCSV employees

/-! ## Concrete sample data for witnesses and counterexamples -/

def sampleContact : ContactInfo :=
  { phone := "+234-000", email := "ada@uptick.io",
    emergencyName := "Ben", emergencyPhone := "+234-111" }

def empA : Employee :=
  { name := "Ada", employeeId := "EMP-001", department := "Engineering",
    role := "Engineer", supervisor := none, status := "Active",
    contractType := "Permanent", hireDate := "2026-01-01T00:00:00.000Z",
    contact := sampleContact, photoUrl := none, id := "a" }

def empB : Employee :=
  { empA with employeeId := "EMP-002", id := "b" }

def validForm : EmployeeBase := empA.toEmployeeBase

def formNoName : EmployeeBase := { validForm with name := "" }

def qp0 : QueryParams :=
  { q := "", fDept := "All", fRole := "All", fStatus := "All",
    fContract := "All", sortKey := .name, sortDir := .asc }

def qp1 : QueryParams :=
  { qp0 with q := "zara", fDept := "Engineering", sortDir := .desc }

def qpNameDesc : QueryParams := { qp0 with sortDir := .desc }

/-! ## Stability of the modelled sort -/

theorem filter_insertSorted_neg (c : α → α → Int) (p : α → Bool) (x : α)
    (hx : p x = false) :
    ∀ l : List α, (insertSorted c x l).filter p = l.filter p := by
  intro l
  induction l with
  | nil => simp [insertSorted, hx]
  | cons y ys ih =>
    by_cases hc : c x y ≤ 0
    · simp [insertSorted, hc, List.filter_cons, hx]
    · simp [insertSorted, hc, List.filter_cons, ih]

theorem filter_insertSorted_pos (c : α → α → Int) (p : α → Bool) (x : α)
    (hx : p x = true) (hxall : ∀ y, 0 < c x y → p y = false) :
    ∀ l : List α, (insertSorted c x l).filter p = x :: l.filter p := by
  intro l
  induction l with
  | nil => simp [insertSorted, hx]
  | cons y ys ih =>
    by_cases hc : c x y ≤ 0
    · simp [insertSorted, hc, List.filter_cons, hx]
    · have hy : p y = false := hxall y (not_le.mp hc)
      simp [insertSorted, hc, List.filter_cons, hy, ih]

/-- A stable sort does not reorder the elements sharing any one key
class: filtering the sorted list by a predicate closed under the
comparator's strict order yields the filtered input unchanged. -/
theorem sortWith_filter_eq (c : α → α → Int) (p : α → Bool)
    (hcp : ∀ x y, p x = true → 0 < c x y → p y = false) :
    ∀ l : List α, (sortWith c l).filter p = l.filter p := by
  intro l
  induction l with
  | nil => rfl
  | cons x xs ih =>
    show (insertSorted c x (sortWith c xs)).filter p = _
    by_cases hx : p x = true
    · rw [filter_insertSorted_pos c p x hx (fun y hy => hcp x y hx hy), ih,
        List.filter_cons_of_pos hx]
    · have hx' : p x = false := by revert hx; cases p x <;> simp
      rw [filter_insertSorted_neg c p x hx', ih,
        List.filter_cons_of_neg (by simp [hx'])]

theorem jsCompare_pos_ne {va vb : String} (h : 0 < jsCompare va vb) :
    va ≠ vb := by
  intro he
  simp [jsCompare, he] at h

theorem key_closure (keyOf : Employee → String) (v : String) :
    ∀ x y : Employee, (keyOf x == v) = true →
      0 < jsCompare (keyOf x) (keyOf y) → (keyOf y == v) = false := by
  intro x y hx hy
  have hne := jsCompare_pos_ne hy
  have hxv : keyOf x = v := by simpa using hx
  simp only [beq_eq_false_iff_ne, ne_eq]
  intro hyv
  exact hne (hxv.trans hyv.symm)

/-- C2 counterexample input: two distinct records with the same name.
Sorting the query view by name **descending** puts them in the
reverse of their input order, refuting stability for the descending
direction.  (The sort key is `name`, so the engine oracle for the
`hireDate` branch is irrelevant; the identity function is passed.) -/
theorem sort_desc_ties_reversed_cex :
    empA.name = empB.name ∧ empA ≠ empB ∧
    filteredView (fun rows => rows) [empA, empB] qpNameDesc =
      [empB, empA] := by
  refine ⟨rfl, by decide, by decide⟩

/-- C2 (amended): for the `name` and `employeeId` sort keys — whose
comparator is consistent, so ECMAScript's stable-sort guarantee
applies — the **ascending** sort is stable: records with equal
sort-key values keep their relative input order.  For every key the
**descending** sort is exactly the reverse of the corresponding
ascending result, so whatever tie order the ascending sort produced
appears *reversed* descending.  No stability is asserted for the
`hireDate` key ascending: its comparator returns `-1` for both
argument orders on a tie (witnessed concretely below by the tied
records `empA`, `empB`), so it is inconsistent and the engine's tie
order is implementation-defined. -/
theorem sort_stable_asc_desc_reverses
    (hireDateSorted : List Employee → List Employee) (k : SortKey)
    (rows : List Employee) (v : String) :
    (sortEmployees hireDateSorted SortKey.name SortDir.asc rows).filter
        (fun e => e.name == v) =
      rows.filter (fun e => e.name == v) ∧
    (sortEmployees hireDateSorted SortKey.employeeId SortDir.asc rows).filter
        (fun e => e.employeeId == v) =
      rows.filter (fun e => e.employeeId == v) ∧
    sortEmployees hireDateSorted k SortDir.desc rows =
      (sortEmployees hireDateSorted k SortDir.asc rows).reverse ∧
    empA.hireDate = empB.hireDate ∧ empA ≠ empB ∧
    hireDateCmp empA empB = -1 ∧ hireDateCmp empB empA = -1 := by
  refine ⟨?_, ?_, ?_, rfl, by decide,
    if_neg (fun h => lt_irrefl _ h), if_neg (fun h => lt_irrefl _ h)⟩
  · exact sortWith_filter_eq (fun a b => jsCompare a.name b.name)
      (fun e => e.name == v)
      (fun x y hx hy => key_closure (fun e => e.name) v x y hx hy) rows
  · exact sortWith_filter_eq (fun a b => jsCompare a.employeeId b.employeeId)
      (fun e => e.employeeId == v)
      (fun x y hx hy => key_closure (fun e => e.employeeId) v x y hx hy) rows
  · cases k <;> rfl

/-! ## Mutation-service theorems -/

/-- C1: with the write capability absent (`userRole` is not `"admin"`,
so `canEdit` is false), delete (`remove`), create (`upsert` with no
editing id) and update (`upsert` with an editing id) are all refused
with the employee collection unchanged, and the refusal outcome is a
different observable than a validation failure (a silent early return
versus the validation `alert`). -/
theorem capability_denied_refusal (confirmOk : Bool) (rid newId : String)
    (editingId : Option String) (form : EmployeeBase) (es : List Employee) :
    remove false confirmOk rid es = (MutResult.capabilityDenied, es) ∧
    upsert false newId editingId form es = (MutResult.capabilityDenied, es) ∧
    MutResult.capabilityDenied ≠ MutResult.validationError := by
  refine ⟨rfl, rfl, by decide⟩

/-- C5: create (an `upsert` with no editing id) with an empty `name`,
`employeeId` or `contact.email` reports the validation failure and
leaves the collection unchanged. -/
theorem create_rejects_empty_required (newId : String) (form : EmployeeBase)
    (es : List Employee)
    (h : form.name = "" ∨ form.employeeId = "" ∨ form.contact.email = "") :
    upsert true newId none form es = (MutResult.validationError, es) := by
  rcases h with h | h | h <;> simp [upsert, h]

theorem create_rejects_empty_required_witness :
    upsert true ("fresh") none formNoName [empA] =
      (MutResult.validationError, [empA]) :=
  create_rejects_empty_required ("fresh") formNoName [empA] (Or.inl rfl)

/-- C6: update (`upsert` with an editing id) targeting an id that no
record carries, with a draft passing validation, is a no-op: it
reports the success path but maps every record to itself, leaving the
collection unchanged (and, the embedding being total, it cannot
throw). -/
theorem update_unknown_id_noop (tid newId : String) (form : EmployeeBase)
    (es : List Employee)
    (hname : form.name ≠ "") (hid : form.employeeId ≠ "")
    (hmail : form.contact.email ≠ "")
    (habs : ∀ x ∈ es, x.id ≠ tid) :
    upsert true newId (some tid) form es = (MutResult.ok, es) := by
  have hmap : es.map (fun x =>
      if x.id = tid then ({ toEmployeeBase := form, id := x.id } : Employee)
      else x) = es := by
    have h2 : ∀ x ∈ es,
        (if x.id = tid then ({ toEmployeeBase := form, id := x.id } : Employee)
         else x) = x :=
      fun x hx => if_neg (habs x hx)
    rw [List.map_congr_left h2]
    simp
  simp [upsert, hname, hid, hmail, hmap]

theorem update_unknown_id_noop_witness :
    upsert true ("fresh") (some ("zzz")) validForm [empA] =
      (MutResult.ok, [empA]) :=
  update_unknown_id_noop ("zzz") ("fresh") validForm [empA]
    (by decide) (by decide) (by decide) (by decide)

/-! ## Aggregator theorems (`newlyHired`) -/

/-- `Math.round (n/d) ≤ 0` whenever the numerator is non-positive and
the divisor positive. -/
theorem jsRoundDiv_nonpos {n d : Int} (hn : n ≤ 0) (hd : 0 < d) :
    jsRoundDiv n d ≤ 0 := by
  unfold jsRoundDiv
  rw [Int.fdiv_eq_ediv _ (by omega : (0 : Int) ≤ 2 * d)]
  have h2 : (2 * n + d) / (2 * d) ≤ d / (2 * d) :=
    Int.ediv_le_ediv (by omega) (by omega)
  have h3 : d / (2 * d) = 0 := Int.ediv_eq_zero_of_lt (by omega) (by omega)
  omega

/-- Timestamp oracle for the C3 counterexample: one ISO string maps to
five days past the epoch, every other string to the epoch itself. -/
def cexGetTime : String → Int := fun s =>
  if s = "1970-01-06T00:00:00.000Z" then 5 * (1000 * 60 * 60 * 24) else 0

/-- A record hired five days in the future relative to the epoch. -/
def futureEmp : Employee :=
  { empA with hireDate := "1970-01-06T00:00:00.000Z", id := "f" }

/-- C3 counterexample: at the epoch, a record hired five days in the
future has rounded day difference `-5` — yet it **is** counted by
`newlyHired` (`-5 ≤ 30`), refuting the claim that future hires are
excluded. -/
theorem newlyHired_counts_future_cex :
    daysBetween cexGetTime futureEmp.hireDate ("1970-01-01T00:00:00.000Z")
      = -5 ∧
    newlyHired cexGetTime ("1970-01-01T00:00:00.000Z") [futureEmp] = 1 := by
  refine ⟨by decide, by decide⟩

/-- C3 (amended): `newlyHired` counts exactly the records whose rounded
whole-day difference from hire date to now is at most 30, and a record
whose hire date lies at or after "now" (non-positive day difference)
is **included** in the count, not excluded. -/
theorem newlyHired_counts (getTime : String → Int) (now : String)
    (es : List Employee) (e : Employee) (he : e ∈ es)
    (hfuture : getTime now ≤ getTime e.hireDate) :
    newlyHired getTime now es =
      (es.filter (fun x => daysBetween getTime x.hireDate now ≤ 30)).length ∧
    daysBetween getTime e.hireDate now ≤ 30 ∧
    e ∈ es.filter (fun x => daysBetween getTime x.hireDate now ≤ 30) ∧
    1 ≤ newlyHired getTime now es := by
  have hle : daysBetween getTime e.hireDate now ≤ 30 := by
    have h0 : getTime now - getTime e.hireDate ≤ 0 := by omega
    have := jsRoundDiv_nonpos h0
      (by norm_num : (0 : Int) < 1000 * 60 * 60 * 24)
    unfold daysBetween
    omega
  have hmem : e ∈ es.filter
      (fun x => daysBetween getTime x.hireDate now ≤ 30) :=
    List.mem_filter.mpr ⟨he, by simpa using hle⟩
  exact ⟨rfl, hle, hmem,
    List.length_pos.mpr (List.ne_nil_of_mem hmem)⟩

theorem newlyHired_counts_witness :
    1 ≤ newlyHired cexGetTime ("1970-01-01T00:00:00.000Z") [futureEmp] :=
  (newlyHired_counts cexGetTime ("1970-01-01T00:00:00.000Z") [futureEmp]
    futureEmp (List.mem_cons_self _ _) (by decide)).2.2.2

/-! ## Record-store load theorems -/

/-- A well-formed stored employee object: every required key is a
string and `contact` is an object. -/
def goodJs : JsValue :=
  .jobj [("id", .jstr ("x1")), ("name", .jstr ("Nina")),
         ("employeeId", .jstr ("EMP-009")),
         ("department", .jstr ("Sales")), ("role", .jstr ("Sales Rep")),
         ("status", .jstr ("Active")), ("contractType", .jstr ("Contract")),
         ("hireDate", .jstr ("2026-01-01")),
         ("contact", .jobj [("phone", .jstr ("1")), ("email", .jstr ("a@b")),
                            ("emergencyName", .jstr ("E")),
                            ("emergencyPhone", .jstr ("2"))])]

/-- A malformed stored entry (a bare number). -/
def badJs : JsValue := .jnum 7

/-- The persisted shapes the system itself ever writes for the
employees key: item absent, item unparseable, or a JSON array. -/
def storedArrayShape (stored : StoredItem) : Prop :=
  stored = none ∨ stored = some none ∨
    ∃ l, stored = some (some (JsValue.jarr l))

/-- C4 counterexample: a persisted value that parses to the JSON
string `"abc"` has truthy `length` `3`, so the initializer calls
`cached.filter(...)` on a string and throws a `TypeError` — the load
is not throw-free for *every* persisted input. -/
theorem load_throws_on_string_cex :
    loadEmployees [] (some (some (JsValue.jstr ("abc")))) =
      Except.error ("TypeError: cached.filter is not a function") := rfl

/-- C4 (amended): loading a persisted **array** holding a mix of
well-formed and malformed entries yields exactly the well-formed
entries, in order (`filter isEmployee`), and the load never throws for
any persisted input that is absent, unparseable, or parses to an
array; a persisted value parsing to a non-array with a truthy `length`
and no `filter` method (e.g. the JSON string `"abc"`) makes it
throw. -/
theorem load_mixed_keeps_wellformed (seed : List JsValue)
    (vs : List JsValue)
    (hgood : ∃ v ∈ vs, isEmployee v = true)
    (hbad : ∃ v ∈ vs, isEmployee v = false) :
    loadEmployees seed (some (some (JsValue.jarr vs))) =
      Except.ok (vs.filter isEmployee) ∧
    ∀ stored, storedArrayShape stored →
      ∃ out, loadEmployees seed stored = Except.ok out := by
  constructor
  · obtain ⟨v, hv, _⟩ := hgood
    have hne : vs ≠ [] := List.ne_nil_of_mem hv
    have hlen : vs.length ≠ 0 := by
      simpa [List.length_eq_zero] using hne
    simp [loadEmployees, loadJSON, jsLength, jsFilterIsEmployee,
      JsValue.truthy, Bind.bind, Except.bind, bne_iff_ne,
      Int.natCast_eq_zero, hlen]
  · intro stored hst
    rcases hst with h | h | ⟨l, h⟩ <;> subst h
    · exact ⟨seed, rfl⟩
    · exact ⟨seed, rfl⟩
    · by_cases hl : l = []
      · subst hl; exact ⟨seed, rfl⟩
      · refine ⟨l.filter isEmployee, ?_⟩
        have hlen2 : l.length ≠ 0 := by
          simpa [List.length_eq_zero] using hl
        simp [loadEmployees, loadJSON, jsLength, jsFilterIsEmployee,
          JsValue.truthy, Bind.bind, Except.bind, bne_iff_ne,
          Int.natCast_eq_zero, hlen2]

theorem load_mixed_keeps_wellformed_witness :
    loadEmployees [] (some (some (JsValue.jarr [goodJs, badJs]))) =
      Except.ok (List.filter isEmployee [goodJs, badJs]) :=
  (load_mixed_keeps_wellformed [] [goodJs, badJs]
    ⟨goodJs, List.mem_cons_self _ _, rfl⟩
    ⟨badJs, by simp, rfl⟩).1

/-- C9 counterexample: a persisted value parsing to the empty JSON
object `{}` is parseable and is not an array, yet its absent `length`
is falsy, so the initializer installs the seed — refuting "the seed is
installed only when the persisted value is absent, unparseable, or an
empty array". -/
theorem seed_installed_for_object_cex :
    loadEmployees [JsValue.jbool true] (some (some (JsValue.jobj []))) =
      Except.ok [JsValue.jbool true] ∧
    (∀ l, JsValue.jobj [] ≠ JsValue.jarr l) := by
  exact ⟨rfl, fun l h => JsValue.noConfusion h⟩

/-- C9 (amended): a persisted non-empty array whose entries all fail
`isEmployee` loads as the **empty** collection, not the seed; the seed
is installed exactly when the loaded value's `length` is falsy —
persisted item absent, unparseable, an empty array, or a parsed
non-array value without a truthy `length` (such as an object). -/
theorem load_all_malformed_empty (seed : List JsValue) (vs : List JsValue)
    (hne : vs ≠ [])
    (hall : ∀ v ∈ vs, isEmployee v = false) :
    loadEmployees seed (some (some (JsValue.jarr vs))) = Except.ok [] ∧
    (seed ≠ [] →
      loadEmployees seed (some (some (JsValue.jarr vs))) ≠ Except.ok seed) ∧
    loadEmployees seed none = Except.ok seed ∧
    loadEmployees seed (some none) = Except.ok seed ∧
    loadEmployees seed (some (some (JsValue.jarr []))) = Except.ok seed ∧
    loadEmployees seed (some (some (JsValue.jobj []))) = Except.ok seed := by
  have hfilter : vs.filter isEmployee = [] :=
    List.filter_eq_nil_iff.mpr (fun a ha => by simp [hall a ha])
  have hlen : vs.length ≠ 0 := by
    simpa [List.length_eq_zero] using hne
  have hmain : loadEmployees seed (some (some (JsValue.jarr vs))) =
      Except.ok [] := by
    simp [loadEmployees, loadJSON, jsLength, jsFilterIsEmployee,
      JsValue.truthy, Bind.bind, Except.bind, bne_iff_ne,
      Int.natCast_eq_zero, hlen, hfilter]
  refine ⟨hmain, ?_, rfl, rfl, rfl, rfl⟩
  intro hseed hcontra
  rw [hmain] at hcontra
  exact hseed (by simpa using hcontra.symm)

theorem load_all_malformed_empty_witness :
    loadEmployees [goodJs] (some (some (JsValue.jarr [badJs]))) =
      Except.ok [] :=
  (load_all_malformed_empty [goodJs] [badJs] (by simp)
    (fun v hv => by
      have hvb : v = badJs := by simpa using hv
      rw [hvb]; decide)).1

/-! ## Export-service theorems -/

theorem exportCSV_shape (e0 : Employee) (rest : List Employee) :
    exportCSV (e0 :: rest) =
      String.intercalate ("\n")
        ((String.intercalate (",") csvHeaders) ::
          (e0 :: rest).map (fun e =>
            String.intercalate (",") ((employeeValues e).map csvEsc))) := by
  have hvals : ∀ e : Employee,
      csvHeaders.map (fun h => csvEsc (rowLookup (employeeRow e) h)) =
        (employeeValues e).map csvEsc := fun e => rfl
  have hh : (employeeRow e0).map (fun p => p.1) = csvHeaders := rfl
  simp only [exportCSV, List.map_cons]
  rw [toCSV, hh]
  simp only [List.map_cons, List.map_map]
  rw [hvals e0]
  congr 1

/-- C7: for a non-empty collection the CSV export is the fixed header
line (the 14 column names, unquoted, in order) followed by one line
per record whose fields are the record's values in column order, each
double-quoted by `csvEsc` with embedded double quotes doubled; the
absent optional fields `supervisor` and `photoUrl` render as the empty
string. -/
theorem exportCSV_contract (es : List Employee) (hne : es ≠ []) :
    exportCSV es =
      String.intercalate ("\n")
        ((String.intercalate (",") csvHeaders) ::
          es.map (fun e =>
            String.intercalate (",") ((employeeValues e).map csvEsc))) ∧
    String.intercalate (",") csvHeaders =
      "id,name,employeeId,department,role,supervisor,status,contractType,hireDate,email,phone,emergencyName,emergencyPhone,photoUrl" ∧
    csvEsc ("She said \"hi\"") = "\"She said \"\"hi\"\"\"" ∧
    (∀ e : Employee, e.supervisor = none →
      rowLookup (employeeRow e) ("supervisor") = "") ∧
    (∀ e : Employee, e.photoUrl = none →
      rowLookup (employeeRow e) ("photoUrl") = "") := by
  obtain ⟨e0, rest, rfl⟩ : ∃ a l, es = a :: l := by
    cases es with
    | nil => exact absurd rfl hne
    | cons a l => exact ⟨a, l, rfl⟩
  refine ⟨exportCSV_shape e0 rest, by decide, by decide, ?_, ?_⟩
  · intro e hsup
    have hrl : rowLookup (employeeRow e) ("supervisor") =
      e.supervisor.getD ("") := rfl
    rw [hrl, hsup]
    rfl
  · intro e hp
    have hrl : rowLookup (employeeRow e) ("photoUrl") =
      e.photoUrl.getD ("") := rfl
    rw [hrl, hp]
    rfl

theorem exportCSV_contract_witness :
    exportCSV [empA] =
      String.intercalate ("\n")
        ((String.intercalate (",") csvHeaders) ::
          [empA].map (fun e =>
            String.intercalate (",") ((employeeValues e).map csvEsc))) :=
  (exportCSV_contract [empA] (by simp)).1

/-- C8: both export handlers read only the full `employees` collection
— their output is invariant under the active search/filter/sort state
— and every record contributes exactly one serialized element: the
JSON document is the array of all records and the CSV is built from
one row per record. -/
theorem export_full_collection (es : List Employee) (p p' : QueryParams)
    (e : Employee) (he : e ∈ es) :
    exportJSONClick es p = exportJSONClick es p' ∧
    exportCSVClick es p = exportCSVClick es p' ∧
    exportJSONClick es p = JsValue.jarr (es.map employeeToJson) ∧
    exportCSVClick es p = toCSV (es.map employeeRow) ∧
    employeeToJson e ∈ es.map employeeToJson ∧
    employeeRow e ∈ es.map employeeRow ∧
    (es.map employeeToJson).length = es.length ∧
    (es.map employeeRow).length = es.length :=
  ⟨rfl, rfl, rfl, rfl, List.mem_map_of_mem _ he, List.mem_map_of_mem _ he,
    List.length_map _ _, List.length_map _ _⟩

theorem export_full_collection_witness :
    employeeToJson empA ∈ [empA].map employeeToJson :=
  (export_full_collection [empA] qp0 qp1 empA
    (List.mem_cons_self _ _)).2.2.2.2.1

/-- C10: exporting the empty collection produces the empty string —
`toCSV` returns `""` for no rows, so not even the header line is
emitted. -/
theorem exportCSV_empty_no_header : exportCSV [] = "" := rfl
